import Mathlib

/-!
Verification development for the xmonkey tree-walking interpreter.

The Go sources are embedded shallowly:
* `ast` package       → `XMonkey.Expr` / `XMonkey.Stmt` (`BlockStatement` is the
  `Stmt.blockStmt` variant, as in Go where it implements `ast.Statement`).
* `object` package    → `XMonkey.Obj`, `XMonkey.EnvData` (`object.Environment`),
  `XMonkey.HashKey`, and the `GetHash` functions.
* `evaluator` package → `XMonkey.evalN` and the `eval*` helpers, one per Go
  function, with a fuel parameter making the recursion through function calls
  total (`none` = fuel exhausted).

Go specifics made explicit in the model:
* `object.Object` is an interface; the evaluator can return the interface nil
  (`Obj.goNil`).  Calling `Type()` on it panics, which the model renders as
  `Res.panicked`.
* `==` on two `object.Object` interface values compares dynamic type and
  pointer.  Heap-allocated kinds (`String`, `Array`, `Hash`, `Function`,
  `ReturnValue`) therefore carry an allocation id drawn from `St.nextId`;
  `TRUE`, `FALSE` and `NULL` are singletons, so their identity is their value.
  `Integer` identity is unobservable (the `==`-by-identity branch of
  `evalInfixExpression` is unreachable for two integers), so `Obj.integer`
  carries no id.
* Go `int64` arithmetic wraps; `wrap64` applies the two's-complement wrap.
-/

namespace XMonkey

/-! ### object.go: type tags -/

def INTEGER_OBJ : String := "INTEGER"

def BOOLEAN_OBJ : String := "BOOLEAN"

def NULL_OBJ : String := "NULL"

def RETURN_VALUE_OBJ : String := "RETURN_VALUE"

def ERROR_OBJ : String := "ERROR"

def FUNCTION_OBJ : String := "FUNCTION"

def STRING_OBJ : String := "STRING"

def BUILTIN_OBJ : String := "BUILTIN"

def ARRAY_OBJ : String := "ARRAY"

def HASH_OBJ : String := "HASH"

/-! ### ast.go: AST nodes

Field-for-field translation of the `ast` package structs used by the
evaluator.  Tokens carry no semantic content for evaluation, so token fields
are dropped; identifiers are represented by their `Name` string (the only
field the evaluator reads). -/

mutual

inductive Expr where
  | identifier (name : String)
  | integerLiteral (value : Int)
  | booleanLiteral (value : Bool)
  | stringLiteral (value : String)
  | prefixExpr (operator : String) (right : Expr)
  | infixExpr (operator : String) (left : Expr) (right : Expr)
  | ifExpr (condition : Expr) (consequence : List Stmt) (alternative : Option (List Stmt))
  | functionLiteral (formalParams : List String) (body : List Stmt)
  | callExpr (callableName : Expr) (actualParams : List Expr)
  | arrayLiteral (elements : List Expr)
  | hashLiteral (pairs : List (Expr × Expr))
  | indexExpr (left : Expr) (index : Expr)
  deriving Repr

inductive Stmt where
  | letStmt (name : String) (value : Expr)
  | returnStmt (value : Expr)
  | exprStmt (value : Expr)
  | blockStmt (statements : List Stmt)
  deriving Repr

end

/-- An `ast.Node` handed to `Eval`: a `*ast.Program`, a statement (including
`*ast.BlockStatement`) or an expression. -/
inductive Node where
  | prog (statements : List Stmt)
  | stmt (s : Stmt)
  | expr (e : Expr)
  deriving Repr

/-! ### object.go: HashKey -/

/-- `object.HashKey`: a pair of type tag and unsigned 64-bit digest (as a
`Nat` below `2^64`). -/
structure HashKey where
  tag : String
  value : Nat
  deriving Repr, DecidableEq

/-- Reinterpret an `int64` value as `uint64` (two's-complement bit pattern),
the meaning of Go's `uint64(r.Value)`. -/
def uint64OfInt (v : Int) : Nat := (v % (2 ^ 64 : Int)).toNat

/-- FNV-1a 64-bit hash of a byte sequence, the algorithm behind Go's
`fnv.New64a` used by `String.GetHash`. -/
def fnv1a64 (bytes : List Nat) : Nat :=
  bytes.foldl (fun h b => ((h ^^^ b) * 1099511628211) % (2 ^ 64)) 14695981039346656037

/-- UTF-8 encoding of one unicode scalar value (as byte values). -/
def utf8EncodeCharNat (c : Char) : List Nat :=
  let n := c.toNat
  if n < 0x80 then [n]
  else if n < 0x800 then
    [0xC0 ||| (n >>> 6), 0x80 ||| (n &&& 0x3F)]
  else if n < 0x10000 then
    [0xE0 ||| (n >>> 12), 0x80 ||| ((n >>> 6) &&& 0x3F), 0x80 ||| (n &&& 0x3F)]
  else
    [0xF0 ||| (n >>> 18), 0x80 ||| ((n >>> 12) &&& 0x3F),
     0x80 ||| ((n >>> 6) &&& 0x3F), 0x80 ||| (n &&& 0x3F)]

/-- UTF-8 bytes of a string, the meaning of Go's `[]byte(r.Value)`. -/
def utf8Bytes (s : String) : List Nat := s.data.flatMap utf8EncodeCharNat

/-- `(*object.Boolean).GetHash`. -/
def booleanGetHash (value : Bool) : HashKey :=
  ⟨BOOLEAN_OBJ, if value then 1 else 0⟩

/-- `(*object.Integer).GetHash`. -/
def integerGetHash (value : Int) : HashKey :=
  ⟨INTEGER_OBJ, uint64OfInt value⟩

/-- `(*object.String).GetHash`. -/
def stringGetHash (value : String) : HashKey :=
  ⟨STRING_OBJ, fnv1a64 (utf8Bytes value)⟩

/-! ### object.go: runtime values -/

/-- `object.Object`.  Constructors mirror the structs of the `object`
package; `goNil` is the nil interface value that `Eval` returns for node
kinds its switch does not handle.  `id` fields model pointer identity of
separately heap-allocated objects (see the file header).  A `Function`
closes over an environment by its index into `St.envs`. -/
inductive Obj where
  | integer (value : Int)
  | boolean (value : Bool)
  | null
  | returnValue (id : Nat) (value : Obj)
  | error (message : String)
  | function (id : Nat) (formalParams : List String) (body : List Stmt) (envWhenDefined : Nat)
  | string (id : Nat) (value : String)
  | builtin (name : String)
  | array (id : Nat) (elements : List Obj)
  | hash (id : Nat) (pairs : List (HashKey × Obj × Obj))
  | goNil
  deriving Repr

/-- The `Type()` method of each object struct.  Never called on `goNil` in
the model: every call site that Go leaves unguarded checks for `goNil` first
and produces the corresponding nil-dereference panic. -/
def typeTag : Obj → String
  | .integer _ => INTEGER_OBJ
  | .boolean _ => BOOLEAN_OBJ
  | .null => NULL_OBJ
  | .returnValue _ _ => RETURN_VALUE_OBJ
  | .error _ => ERROR_OBJ
  | .function _ _ _ _ => FUNCTION_OBJ
  | .string _ _ => STRING_OBJ
  | .builtin _ => BUILTIN_OBJ
  | .array _ _ => ARRAY_OBJ
  | .hash _ _ => HASH_OBJ
  | .goNil => "NIL"

/-- The `Hashable` interface: `GetHash` on the three hashable kinds, `none`
for every other kind (the type assertion fails). -/
def objGetHash : Obj → Option HashKey
  | .boolean b => some (booleanGetHash b)
  | .integer v => some (integerGetHash v)
  | .string _ s => some (stringGetHash s)
  | _ => none

/-- Go `==` on two (non-nil) `object.Object` interface values: equal dynamic
type and equal pointer.  Singletons compare by value; id-carrying kinds by
id.  The `integer`/`integer` and `error`/`error` cases are unreachable from
`evalInfixExpression` (integers take the by-value branch first, errors
short-circuit evaluation before any comparison). -/
def objIdentEq : Obj → Obj → Bool
  | .boolean a, .boolean b => a == b
  | .null, .null => true
  | .integer a, .integer b => a == b
  | .string i _, .string j _ => i == j
  | .array i _, .array j _ => i == j
  | .hash i _, .hash j _ => i == j
  | .function i _ _ _, .function j _ _ _ => i == j
  | .returnValue i _, .returnValue j _ => i == j
  | .builtin a, .builtin b => a == b
  | _, _ => false

/-! ### object.go: Environment, and the evaluation state -/

/-- `object.Environment`: a name→value store plus an optional outer
environment, referenced by its index into `St.envs`. -/
structure EnvData where
  outer : Option Nat
  store : List (String × Obj)
  deriving Repr

/-- The mutable heap of the evaluation: all allocated environments (an
environment pointer is an index into `envs`) and the counter handing out
allocation ids for identity-carrying objects. -/
structure St where
  envs : List EnvData
  nextId : Nat
  deriving Repr

/-- Replace the element at index `i` by `f` of it (used for in-place
mutation of an environment). -/
def listModify (l : List α) (i : Nat) (f : α → α) : List α :=
  match l, i with
  | [], _ => []
  | a :: rest, 0 => f a :: rest
  | a :: rest, n + 1 => a :: listModify rest n f

/-- Draw a fresh allocation id. -/
def allocId (st : St) : Nat × St :=
  (st.nextId, { st with nextId := st.nextId + 1 })

/-- `object.NewEnvironment` for the root environment of a run. -/
def initialState : St :=
  { envs := [⟨none, []⟩], nextId := 0 }

/-- `object.NewEnclosedEnv`: allocate a fresh empty environment whose outer
pointer is `outer`; returns its index. -/
def newEnclosedEnv (outer : Nat) (st : St) : Nat × St :=
  (st.envs.length, { st with envs := st.envs ++ [⟨some outer, []⟩] })

/-- `(*object.Environment).Set`: write into the store of environment
`envId`.  Go assigns into a map; lookups read the most recent binding, so
prepending is observationally the same mutation. -/
def envSet (st : St) (envId : Nat) (name : String) (v : Obj) : St :=
  { st with envs := listModify st.envs envId (fun e => { e with store := (name, v) :: e.store }) }

/-- `(*object.Environment).Get`, walking the outer chain.  The chain fuel
`k` only guards against malformed states; every reachable state has outer
pointers to strictly earlier environments, so `envGet` below never exhausts
it. -/
def envGetAux : Nat → St → Nat → String → Option Obj
  | 0, _, _, _ => none
  | k + 1, st, envId, name =>
    match st.envs.get? envId with
    | none => none
    | some e =>
      match e.store.lookup name with
      | some v => some v
      | none =>
        match e.outer with
        | some o => envGetAux k st o name
        | none => none

def envGet (st : St) (envId : Nat) (name : String) : Option Obj :=
  envGetAux st.envs.length st envId name

/-! ### evaluator.go: result type and pure helpers -/

/-- The outcome of one Go `Eval` call: a returned `object.Object` (possibly
the nil interface, `Obj.goNil`) or a runtime panic that unwinds the whole
evaluation. -/
inductive Res where
  | ok (obj : Obj)
  | panicked (message : String)
  deriving Repr

/-- Go runtime panic message for a nil interface method call. -/
def nilDerefMsg : String := "runtime error: invalid memory address or nil pointer dereference"

/-- Go runtime panic message for a slice index out of range. -/
def indexRangeMsg : String := "runtime error: index out of range"

/-- Go runtime panic message for integer division by zero. -/
def divZeroMsg : String := "runtime error: integer divide by zero"

/-- Two's-complement wrap applied by Go `int64` arithmetic. -/
def wrap64 (n : Int) : Int := ((n + 2 ^ 63) % 2 ^ 64) - 2 ^ 63

/-- The `NULL` singleton of the evaluator package. -/
def NULL : Obj := Obj.null

/-- The `TRUE` singleton of the evaluator package. -/
def TRUE : Obj := Obj.boolean true

/-- The `FALSE` singleton of the evaluator package. -/
def FALSE : Obj := Obj.boolean false

def nativeBoolToBooleanObject (input : Bool) : Obj :=
  if input then TRUE else FALSE

/-- `newError` (the `fmt.Sprintf` formatting is done by the callers here). -/
def newError (message : String) : Obj := Obj.error message

/-- `isError`: nil is not an error; otherwise compare the type tag. -/
def isError : Obj → Bool
  | .goNil => false
  | obj => typeTag obj == ERROR_OBJ

/-- `isTruthy`: switch on the three singletons, default true.  A nil result
reaching it (none does in the evaluator: `If` conditions are expressions)
would fall to the default. -/
def isTruthy : Obj → Bool
  | .null => false
  | .boolean true => true
  | .boolean false => false
  | _ => true

/-- `evalBangOperator`: switch on the three singletons, default `FALSE`
(a nil operand also falls to the default, as in Go). -/
def evalBangOperator : Obj → Obj
  | .boolean true => FALSE
  | .boolean false => TRUE
  | .null => TRUE
  | _ => FALSE

/-- `evalMinusPrefixOperator`: explicit nil check yields `NULL`; non-integer
yields the unknown-operator error; the failed-assertion `NULL` branch after
the type check is unreachable. -/
def evalMinusPrefixOperator : Obj → Obj
  | .goNil => NULL
  | .integer v => Obj.integer (wrap64 (-v))
  | right => newError ("unknown operator: -" ++ typeTag right)

/-- `evalPrefixExpression`.  In the default branch Go formats
`right.Type()`, which panics on a nil operand. -/
def evalPrefixExpression (operator : String) (right : Obj) : Res :=
  if operator == "!" then .ok (evalBangOperator right)
  else if operator == "-" then .ok (evalMinusPrefixOperator right)
  else
    match right with
    | .goNil => .panicked nilDerefMsg
    | _ => .ok (newError ("unknown operator: " ++ operator ++ typeTag right))

/-- `evalIntegerInfix` after its two type assertions (the call site
guarantees both operands are `Integer`).  `+ - * /` wrap like Go `int64`;
`/` truncates toward zero and panics on a zero divisor. -/
def evalIntegerInfix (op : String) (leftVal rightVal : Int) : Res :=
  if op == "+" then .ok (.integer (wrap64 (leftVal + rightVal)))
  else if op == "-" then .ok (.integer (wrap64 (leftVal - rightVal)))
  else if op == "*" then .ok (.integer (wrap64 (leftVal * rightVal)))
  else if op == "/" then
    if rightVal = 0 then .panicked divZeroMsg
    else .ok (.integer (wrap64 (Int.tdiv leftVal rightVal)))
  else if op == "<" then .ok (nativeBoolToBooleanObject (decide (leftVal < rightVal)))
  else if op == ">" then .ok (nativeBoolToBooleanObject (decide (rightVal < leftVal)))
  else if op == "==" then .ok (nativeBoolToBooleanObject (decide (leftVal = rightVal)))
  else if op == "!=" then .ok (nativeBoolToBooleanObject (!(decide (leftVal = rightVal))))
  else .ok (newError ("unknown operator: " ++ INTEGER_OBJ ++ " " ++ op ++ " " ++ INTEGER_OBJ))

/-- `evalStringInfixExpression` after its type assertions; `+` concatenates
into a freshly allocated `String` object. -/
def evalStringInfixExpression (op : String) (leftVal rightVal : String) (st : St) : Res × St :=
  if op ≠ "+" then
    (.ok (newError ("unknown operator: " ++ STRING_OBJ ++ " " ++ op ++ " " ++ STRING_OBJ)), st)
  else
    let (i, st') := allocId st
    (.ok (.string i (leftVal ++ rightVal)), st')

/-- `evalInfixExpression`.  The Go `switch` evaluates its case guards in
order with short-circuit `&&`: `left.Type()` is always called (nil left
panics); `right.Type()` is called in the first guard only when the left
operand is an `Integer`, and otherwise not before the type-mismatch guard —
so a nil right operand still reaches the identity comparison of `==`/`!=`,
where a non-nil interface never equals nil. -/
def evalInfixExpression (op : String) (left right : Obj) (st : St) : Res × St :=
  match left with
  | .goNil => (.panicked nilDerefMsg, st)
  | _ =>
    match right with
    | .goNil =>
      if typeTag left == INTEGER_OBJ then (.panicked nilDerefMsg, st)
      else if op == "==" then (.ok (nativeBoolToBooleanObject false), st)
      else if op == "!=" then (.ok (nativeBoolToBooleanObject true), st)
      else (.panicked nilDerefMsg, st)
    | _ =>
      match left, right with
      | .integer lv, .integer rv => (evalIntegerInfix op lv rv, st)
      | _, _ =>
        if op == "==" then (.ok (nativeBoolToBooleanObject (objIdentEq left right)), st)
        else if op == "!=" then (.ok (nativeBoolToBooleanObject (!(objIdentEq left right))), st)
        else if typeTag left ≠ typeTag right then
          (.ok (newError ("type mismatch: " ++ typeTag left ++ " " ++ op ++ " " ++ typeTag right)), st)
        else
          match left, right with
          | .string _ lv, .string _ rv => evalStringInfixExpression op lv rv st
          | _, _ =>
            (.ok (newError ("unknown operator: " ++ typeTag left ++ " " ++ op ++ " " ++ typeTag right)), st)

/-- Modelled from the spec: the file defining the evaluator's `builtins`
map is not under `src/` (only the lookup in `evalIdentifier` and the call
in `applyFunction` are).  §4.H lists exactly the names len, first, last,
rest, push, puts.  The map is built once, so each name always yields the
same `*object.Builtin` pointer: identity by name is faithful. -/
def builtins (name : String) : Option Obj :=
  if name == "len" ∨ name == "first" ∨ name == "last" ∨ name == "rest"
      ∨ name == "push" ∨ name == "puts" then
    some (Obj.builtin name)
  else none

/-- `evalIdentifier`: environment chain first, then the builtins table,
then the identifier-not-found error. -/
def evalIdentifier (name : String) (envId : Nat) (st : St) : Obj :=
  match envGet st envId name with
  | some v => v
  | none =>
    match builtins name with
    | some b => b
    | none => newError ("identifier not found: " ++ name)

/-- `evalArrayIndexExpression`: `NULL` when `idx < 0 || idx > len-1`,
otherwise the element (in range by the guard, as in Go). -/
def evalArrayIndexExpression (elements : List Obj) (idx : Int) : Obj :=
  let mx : Int := (elements.length : Int) - 1
  if h : idx < 0 ∨ mx < idx then Obj.null
  else elements.get ⟨idx.toNat, by push_neg at h; omega⟩

/-- `evalIndexExpresson` (source spelling).  The only supported combination
is `Array[Integer]`; the guard calls `left.Type()` always and
`index.Type()` only when the left operand is an `Array` (nil there panics);
every other combination is the unsupported-operator error. -/
def evalIndexExpresson (left index : Obj) : Res :=
  match left with
  | .goNil => .panicked nilDerefMsg
  | .array _ elements =>
    match index with
    | .goNil => .panicked nilDerefMsg
    | .integer idx => .ok (evalArrayIndexExpression elements idx)
    | _ => .ok (newError ("index operator not supported: " ++ ARRAY_OBJ))
  | _ => .ok (newError ("index operator not supported: " ++ typeTag left))

/-- `unwrapReturnValue`. -/
def unwrapReturnValue : Obj → Obj
  | .returnValue _ v => v
  | obj => obj

/-- The binding loop of `createCallEnv`: Go walks the formal parameters and
indexes `args[paramIdx]`; walking both lists in step is the same, and a
missing argument is the index-out-of-range panic. -/
def bindFormalParams (envId : Nat) : List String → List Obj → St → Except String St
  | [], _, st => .ok st
  | _ :: _, [], _ => .error indexRangeMsg
  | p :: ps, a :: as, st => bindFormalParams envId ps as (envSet st envId p a)

/-- `createCallEnv`: a fresh environment enclosed over the closure's
captured environment, with each formal name bound to the argument at its
index. -/
def createCallEnv (formalParams : List String) (envWhenDefined : Nat) (args : List Obj)
    (st : St) : Except String (Nat × St) :=
  let (envId, st') := newEnclosedEnv envWhenDefined st
  match bindFormalParams envId formalParams args st' with
  | .error m => .error m
  | .ok st'' => .ok (envId, st'')

/-- Modelled from the spec: the built-in functions' source is not under
`src/`.  §4.H: `len` (byte length of a String / element count of an
Array), `first`, `last`, `rest`, `push`, `puts`; arity mismatch yields
`wrong number of arguments. got=<n>, want=<m>` and a bad argument kind
yields `argument to <name> not supported, got <type>`; `puts` prints (not
modelled) and returns `Null`. -/
def applyBuiltin (name : String) (args : List Obj) (st : St) : Res × St :=
  if name == "len" then
    match args with
    | [.string _ s] => (.ok (.integer (Int.ofNat s.utf8ByteSize)), st)
    | [.array _ es] => (.ok (.integer (Int.ofNat es.length)), st)
    | [other] => (.ok (newError ("argument to len not supported, got " ++ typeTag other)), st)
    | _ => (.ok (newError ("wrong number of arguments. got=" ++ toString args.length ++ ", want=1")), st)
  else if name == "first" then
    match args with
    | [.array _ []] => (.ok NULL, st)
    | [.array _ (e :: _)] => (.ok e, st)
    | [other] => (.ok (newError ("argument to first not supported, got " ++ typeTag other)), st)
    | _ => (.ok (newError ("wrong number of arguments. got=" ++ toString args.length ++ ", want=1")), st)
  else if name == "last" then
    match args with
    | [.array _ []] => (.ok NULL, st)
    | [.array _ (e :: es)] => (.ok ((e :: es).getLast (by simp)), st)
    | [other] => (.ok (newError ("argument to last not supported, got " ++ typeTag other)), st)
    | _ => (.ok (newError ("wrong number of arguments. got=" ++ toString args.length ++ ", want=1")), st)
  else if name == "rest" then
    match args with
    | [.array _ []] => (.ok NULL, st)
    | [.array _ (_ :: es)] =>
      let (i, st') := allocId st
      (.ok (.array i es), st')
    | [other] => (.ok (newError ("argument to rest not supported, got " ++ typeTag other)), st)
    | _ => (.ok (newError ("wrong number of arguments. got=" ++ toString args.length ++ ", want=1")), st)
  else if name == "push" then
    match args with
    | [.array _ es, v] =>
      let (i, st') := allocId st
      (.ok (.array i (es ++ [v])), st')
    | [other, _] => (.ok (newError ("argument to push not supported, got " ++ typeTag other)), st)
    | _ => (.ok (newError ("wrong number of arguments. got=" ++ toString args.length ++ ", want=2")), st)
  else if name == "puts" then
    (.ok NULL, st)
  else
    (.ok (newError ("identifier not found: " ++ name)), st)

/-! ### evaluator.go: Eval

`evalN fuel` is Go's `Eval`, made total by fuel: `none` means the fuel ran
out (the Go recursion would still be running); every recursive call burns
one unit, so any terminating Go evaluation is reproduced exactly by every
sufficiently large fuel.  The statement loops of `evalProgram` and
`evalBlockStatement` are the `.prog`/`.blockStmt` cases below (the loop
"continue" is the tail call on the remaining statements);
`evalExpressions` and `applyFunction` take the recursive evaluator as an
argument so that the recursion stays structural on the fuel. -/

/-- `evalExpressions` with the recursive `Eval` call abstracted as `ev`:
evaluate left to right, accumulating; the first error value is returned as
a singleton list, discarding the accumulator; `Sum.inr` propagates a
panic. -/
def evalExpressionsGo (ev : Expr → St → Option (Res × St)) :
    List Expr → St → List Obj → Option ((List Obj ⊕ String) × St)
  | [], st, acc => some (.inl acc.reverse, st)
  | e :: rest, st, acc =>
    match ev e st with
    | none => none
    | some (.panicked m, st') => some (.inr m, st')
    | some (.ok v, st') =>
      if isError v then some (.inl [v], st')
      else evalExpressionsGo ev rest st' (v :: acc)

/-- `applyFunction` with the recursive body evaluation abstracted as
`evBlock`: a `Function` gets a fresh call environment (panicking like Go
when an argument is missing) and its body evaluated with the `ReturnValue`
envelope unwrapped; a `Builtin` is invoked directly; anything else is the
not-a-function error (`fn.Type()` panics on nil). -/
def applyFunctionGo (evBlock : List Stmt → Nat → St → Option (Res × St))
    (fn : Obj) (args : List Obj) (st : St) : Option (Res × St) :=
  match fn with
  | .function _ formalParams body envWhenDefined =>
    match createCallEnv formalParams envWhenDefined args st with
    | .error m => some (.panicked m, st)
    | .ok (callEnvId, st') =>
      match evBlock body callEnvId st' with
      | none => none
      | some (.panicked m, st'') => some (.panicked m, st'')
      | some (.ok v, st'') => some (.ok (unwrapReturnValue v), st'')
  | .builtin name => some (applyBuiltin name args st)
  | .goNil => some (.panicked nilDerefMsg, st)
  | other => some (.ok (newError ("not a function: " ++ typeTag other)), st)

/-- `Eval(node, env)`: the central dispatch.
  * `.prog` folds the program statements, unwrapping a `ReturnValue` and
    stopping on the first `ReturnValue` or `Error`; an empty program is
    the untouched `var result object.Object`, i.e. nil (`evalProgram`).
  * `.blockStmt` is the same fold but a `ReturnValue` is passed back
    intact, checked by type tag on a non-nil result (`evalBlockStatement`).
  * `.ifExpr` is `evalIfExpression`: a truthy condition runs the
    consequence block, otherwise the alternative block if present,
    otherwise `NULL`.
  * `HashLiteral` reaches no case of the Go `switch` and `LetStatement`
    falls out of its case without a `return`, so both produce the nil
    interface (`Obj.goNil`). -/
def evalN : Nat → Node → Nat → St → Option (Res × St)
  | 0, _, _, _ => none
  | fuel + 1, node, envId, st =>
    match node with
    | .prog [] => some (.ok .goNil, st)
    | .prog (s :: rest) =>
      match evalN fuel (.stmt s) envId st with
      | none => none
      | some (.panicked m, st') => some (.panicked m, st')
      | some (.ok v, st') =>
        match v with
        | .returnValue _ inner => some (.ok inner, st')
        | .error m => some (.ok (.error m), st')
        | _ =>
          match rest with
          | [] => some (.ok v, st')
          | r :: rs => evalN fuel (.prog (r :: rs)) envId st'
    | .stmt s =>
      match s with
      | .blockStmt [] => some (.ok .goNil, st)
      | .blockStmt (s :: rest) =>
        match evalN fuel (.stmt s) envId st with
        | none => none
        | some (.panicked m, st') => some (.panicked m, st')
        | some (.ok v, st') =>
          match v with
          | .returnValue i inner => some (.ok (.returnValue i inner), st')
          | .error m => some (.ok (.error m), st')
          | _ =>
            match rest with
            | [] => some (.ok v, st')
            | r :: rs => evalN fuel (.stmt (.blockStmt (r :: rs))) envId st'
      | .returnStmt value =>
        match evalN fuel (.expr value) envId st with
        | none => none
        | some (.panicked m, st') => some (.panicked m, st')
        | some (.ok v, st') =>
          if isError v then some (.ok v, st')
          else
            let (i, st'') := allocId st'
            some (.ok (.returnValue i v), st'')
      | .letStmt name value =>
        match evalN fuel (.expr value) envId st with
        | none => none
        | some (.panicked m, st') => some (.panicked m, st')
        | some (.ok v, st') =>
          if isError v then some (.ok v, st')
          else some (.ok .goNil, envSet st' envId name v)
      | .exprStmt value => evalN fuel (.expr value) envId st
    | .expr e =>
      match e with
      | .identifier name => some (.ok (evalIdentifier name envId st), st)
      | .integerLiteral value => some (.ok (.integer value), st)
      | .booleanLiteral value => some (.ok (nativeBoolToBooleanObject value), st)
      | .stringLiteral value =>
        let (i, st') := allocId st
        some (.ok (.string i value), st')
      | .functionLiteral formalParams body =>
        let (i, st') := allocId st
        some (.ok (.function i formalParams body envId), st')
      | .prefixExpr operator right =>
        match evalN fuel (.expr right) envId st with
        | none => none
        | some (.panicked m, st') => some (.panicked m, st')
        | some (.ok r, st') =>
          if isError r then some (.ok r, st')
          else some (evalPrefixExpression operator r, st')
      | .infixExpr operator l r =>
        match evalN fuel (.expr l) envId st with
        | none => none
        | some (.panicked m, st') => some (.panicked m, st')
        | some (.ok lv, st') =>
          if isError lv then some (.ok lv, st')
          else
            match evalN fuel (.expr r) envId st' with
            | none => none
            | some (.panicked m, st'') => some (.panicked m, st'')
            | some (.ok rv, st'') =>
              if isError rv then some (.ok rv, st'')
              else some (evalInfixExpression operator lv rv st'')
      | .callExpr callableName actualParams =>
        match evalN fuel (.expr callableName) envId st with
        | none => none
        | some (.panicked m, st') => some (.panicked m, st')
        | some (.ok f, st') =>
          if isError f then some (.ok f, st')
          else
            match evalExpressionsGo (fun e st => evalN fuel (.expr e) envId st) actualParams st' [] with
            | none => none
            | some (.inr m, st'') => some (.panicked m, st'')
            | some (.inl args, st'') =>
              match args with
              | [a] =>
                if isError a then some (.ok a, st'')
                else applyFunctionGo (fun body env st => evalN fuel (.stmt (.blockStmt body)) env st) f args st''
              | _ => applyFunctionGo (fun body env st => evalN fuel (.stmt (.blockStmt body)) env st) f args st''
      | .indexExpr left index =>
        match evalN fuel (.expr left) envId st with
        | none => none
        | some (.panicked m, st') => some (.panicked m, st')
        | some (.ok lv, st') =>
          if isError lv then some (.ok lv, st')
          else
            match evalN fuel (.expr index) envId st' with
            | none => none
            | some (.panicked m, st'') => some (.panicked m, st'')
            | some (.ok iv, st'') =>
              if isError iv then some (.ok iv, st'')
              else some (evalIndexExpresson lv iv, st'')
      | .ifExpr condition consequence alternative =>
        match evalN fuel (.expr condition) envId st with
        | none => none
        | some (.panicked m, st') => some (.panicked m, st')
        | some (.ok c, st') =>
          if isError c then some (.ok c, st')
          else if isTruthy c then evalN fuel (.stmt (.blockStmt consequence)) envId st'
          else
            match alternative with
            | some alt => evalN fuel (.stmt (.blockStmt alt)) envId st'
            | none => some (.ok NULL, st')
      | .arrayLiteral elements =>
        match evalExpressionsGo (fun e st => evalN fuel (.expr e) envId st) elements st [] with
        | none => none
        | some (.inr m, st') => some (.panicked m, st')
        | some (.inl elems, st') =>
          match elems with
          | [a] =>
            if isError a then some (.ok a, st')
            else
              let (i, st'') := allocId st'
              some (.ok (.array i elems), st'')
          | _ =>
            let (i, st'') := allocId st'
            some (.ok (.array i elems), st'')
      | .hashLiteral _ => some (.ok .goNil, st)

/-- The top-level run: parse-free entry point evaluating a `Program` in a
fresh root environment (`object.NewEnvironment`). -/
def runProgram (statements : List Stmt) (fuel : Nat) : Option (Res × St) :=
  evalN fuel (.prog statements) 0 initialState

/-- Final result of a run, without the final heap. -/
def runResult (statements : List Stmt) (fuel : Nat) : Option Res :=
  (runProgram statements fuel).map Prod.fst

/-! ### parser.go: the error-recording core of the Pratt parser

Only the state and the expect/record pair that claims about parser error
handling concern (`expectPeek`, `peekError`, lines 135-164 of the parser
source); the productions consult `expectPeek` and return nil when it
returns false. -/

/-- `token.Token`: the `(Type, Literal)` pair; the `TokenType` constants of
the token package are their literal strings (`token.ASSIGN = "="`,
`token.INT = "INT"`, ...). -/
structure Token where
  ttype : String
  literal : String
  deriving Repr, DecidableEq

/-- `token.EOF` token as produced by the scanner at end of input. -/
def eofToken : Token := ⟨"EOF", ""⟩

/-- `parser.Parser`.  Modelled from the spec: the scanner (the `lexer`
package) is not under `src/`; per §4.B it is a lazy token sequence whose
`NextToken` yields the next token and then `EOF` forever at end of input,
so the parser state carries the remaining stream as a list. -/
structure Parser where
  tokens : List Token
  curToken : Token
  peekToken : Token
  errors : List String
  deriving Repr, DecidableEq

/-- `(*Parser).nextToken`: shift the peek token into current and pull the
next token from the scanner. -/
def nextToken (p : Parser) : Parser :=
  { p with curToken := p.peekToken,
           peekToken := p.tokens.headD eofToken,
           tokens := p.tokens.tail }

/-- `(*Parser).curTokenIs`. -/
def curTokenIs (p : Parser) (t : String) : Bool := p.curToken.ttype == t

/-- `(*Parser).peekTokenIs`. -/
def peekTokenIs (p : Parser) (t : String) : Bool := p.peekToken.ttype == t

/-- `(*Parser).peekError`: append the formatted message
`expect next token to be %s. got %s instead` to the error list. -/
def peekError (p : Parser) (t : String) : Parser :=
  { p with errors := p.errors
      ++ ["expect next token to be " ++ t ++ ". got " ++ p.peekToken.ttype ++ " instead"] }

/-- `(*Parser).expectPeek`: advance past a matching peek token, otherwise
record the peek error and return false (on which the calling production
returns nil). -/
def expectPeek (p : Parser) (t : String) : Bool × Parser :=
  if peekTokenIs p t then (true, nextToken p)
  else (false, peekError p t)

/-- The message shape asserted by the spec, written from the spec's words
(`"expected X, got Y"`), for comparison against the code's `peekError`
format. -/
def specPeekErrorMessage (x y : String) : String :=
  "expected " ++ x ++ ", got " ++ y

/-! ### Claim programs -/

/-- Spec §8 scenario: `if (10 > 1) { if (10 > 1) { return v; } return 1; }`
with the inner literal generalised to `v`. -/
def nestedReturnProgram (v : Int) : List Stmt :=
  [ .exprStmt (.ifExpr (.infixExpr ">" (.integerLiteral 10) (.integerLiteral 1))
      [ .exprStmt (.ifExpr (.infixExpr ">" (.integerLiteral 10) (.integerLiteral 1))
          [ .returnStmt (.integerLiteral v) ] none),
        .returnStmt (.integerLiteral 1) ]
      none) ]

/-- Spec §8 property: `let mk = fn(x) { fn(y) { x + y } }; mk(a)(b)` (the
inner function literal is the block's final expression statement). -/
def closureProgram (a b : Int) : List Stmt :=
  [ .letStmt "mk" (.functionLiteral ["x"]
      [ .exprStmt (.functionLiteral ["y"]
          [ .exprStmt (.infixExpr "+" (.identifier "x") (.identifier "y")) ]) ]),
    .exprStmt (.callExpr (.callExpr (.identifier "mk") [ .integerLiteral a ]) [ .integerLiteral b ]) ]

/-! ### Theorems -/

/-- C1.  Return-value propagation: a `ReturnStatement` wraps its operand in
the `ReturnValue` envelope and a block passes the envelope back intact (the
second conjunct exhibits the envelope, id 0, produced by evaluating the
block `{ return v; }` as a block); a `Program` unwraps it (third conjunct),
as does `unwrapReturnValue` at a call site (first conjunct); and the nested
return program `if (10 > 1) { if (10 > 1) { return v; } return 1; }`
evaluates to `Integer v` for every integer `v` (fourth conjunct). -/
theorem nested_return_propagation (v : Int) (i : Nat) (o : Obj) :
    unwrapReturnValue (Obj.returnValue i o) = o
    ∧ (evalN 10 (.stmt (.blockStmt [ .returnStmt (.integerLiteral v) ])) 0 initialState).map Prod.fst
        = some (.ok (.returnValue 0 (.integer v)))
    ∧ (evalN 10 (.prog [ .returnStmt (.integerLiteral v) ]) 0 initialState).map Prod.fst
        = some (.ok (.integer v))
    ∧ runResult (nestedReturnProgram v) 30 = some (.ok (.integer v)) :=
  ⟨rfl, rfl, rfl, rfl⟩

/-- C2 counterexample.  Indexing the hash `{"name": "Monkey"}` (as a value)
with a `String` key equal in content to the stored key does not produce the
stored value (nor `Null`): it produces the unsupported-index-operator
error, because `evalIndexExpresson` only handles `Array[Integer]`.
Evaluating the full program `{"name": "Monkey"}["name"]` even panics,
because the unhandled hash literal evaluates to the nil interface. -/
theorem hash_index_claim_cex :
    evalIndexExpresson
        (Obj.hash 0 [(stringGetHash "name", Obj.string 1 "name", Obj.string 2 "Monkey")])
        (Obj.string 3 "name")
      = Res.ok (Obj.error "index operator not supported: HASH")
    ∧ evalIndexExpresson
        (Obj.hash 0 [(stringGetHash "name", Obj.string 1 "name", Obj.string 2 "Monkey")])
        (Obj.string 3 "name")
      ≠ Res.ok (Obj.string 2 "Monkey")
    ∧ evalIndexExpresson
        (Obj.hash 0 [(stringGetHash "name", Obj.string 1 "name", Obj.string 2 "Monkey")])
        (Obj.string 3 "name")
      ≠ Res.ok Obj.null
    ∧ runResult
        [ .exprStmt (.indexExpr (.hashLiteral [(.stringLiteral "name", .stringLiteral "Monkey")])
            (.stringLiteral "name")) ] 10
      = some (.panicked nilDerefMsg) := by
  have e : evalIndexExpresson
      (Obj.hash 0 [(stringGetHash "name", Obj.string 1 "name", Obj.string 2 "Monkey")])
      (Obj.string 3 "name")
      = Res.ok (Obj.error "index operator not supported: HASH") := rfl
  refine ⟨e, ?_, ?_, rfl⟩ <;> rw [e] <;> simp

/-- C2 as amended.  Index evaluation on a `Hash` value never consults the
key: for every hash and every index value it yields the error
`index operator not supported: HASH` (the evaluator implements indexing
only for `Array[Integer]`). -/
theorem hash_index_unsupported (i : Nat) (pairs : List (HashKey × Obj × Obj)) (index : Obj) :
    evalIndexExpresson (Obj.hash i pairs) index
      = Res.ok (Obj.error "index operator not supported: HASH") := rfl

/-- C3 counterexample.  `Eval` applied to a `HashLiteral` node returns the
host language's nil, not a runtime value object: its dispatch has no case
for `HashLiteral`. -/
theorem eval_hashLiteral_nil_cex :
    evalN 1 (.expr (.hashLiteral [])) 0 initialState = some (.ok Obj.goNil, initialState) := rfl

/-- C3 as amended.  The dispatch of `Eval` is not total: a `HashLiteral`
node evaluates to the nil interface for every environment and state, and a
`LetStatement` likewise produces nil (its case sets the binding and falls
out of the switch without a return). -/
theorem eval_dispatch_not_total (fuel : Nat) (pairs : List (Expr × Expr)) (name : String)
    (v : Int) (envId : Nat) (st : St) :
    evalN (fuel + 1) (.expr (.hashLiteral pairs)) envId st = some (.ok .goNil, st)
    ∧ evalN (fuel + 2) (.stmt (.letStmt name (.integerLiteral v))) envId st
        = some (.ok .goNil, envSet st envId name (.integer v)) :=
  ⟨rfl, rfl⟩

/-- C4.  Closure capture: for all integers `a` and `b`, the program
`let mk = fn(x) { fn(y) { x + y } }; mk(a)(b)` run in a fresh environment
yields `Integer` of the wrapping 64-bit sum of `a` and `b` (for `int64`
inputs this is the Go `a + b`): the inner function literal captures the
call environment binding `x`, and the second call encloses it anew binding
`y`. -/
theorem closure_capture (a b : Int) :
    runResult (closureProgram a b) 40 = some (Res.ok (Obj.integer (wrap64 (a + b)))) := rfl

/-- C10.  `==`/`!=` on two `String` operands take the identity-comparison
branch, not a content comparison: the program `"a" == "a"` (with any
content `s`) evaluates its two literals to two distinct allocations, so
`==` yields `false` and `!=` yields `true`; integer operands, by contrast,
are compared by value (third conjunct for a concrete program, fourth
conjunct for every integer at the infix-evaluation level). -/
theorem string_comparison_by_identity (s : String) (n : Int) (st : St) :
    runResult [ .exprStmt (.infixExpr "==" (.stringLiteral s) (.stringLiteral s)) ] 10
      = some (.ok FALSE)
    ∧ runResult [ .exprStmt (.infixExpr "!=" (.stringLiteral s) (.stringLiteral s)) ] 10
      = some (.ok TRUE)
    ∧ runResult [ .exprStmt (.infixExpr "==" (.integerLiteral 5) (.integerLiteral 5)) ] 10
      = some (.ok TRUE)
    ∧ evalInfixExpression "==" (Obj.integer n) (Obj.integer n) st = (.ok TRUE, st) := by
  refine ⟨rfl, rfl, rfl, ?_⟩
  show (evalIntegerInfix "==" n n, st) = (.ok TRUE, st)
  simp [evalIntegerInfix, nativeBoolToBooleanObject]

/-- Two non-nil objects with different type tags are never identical: a Go
interface comparison of distinct dynamic types is false. -/
theorem objIdentEq_false_of_tag_ne {l r : Obj} (h : typeTag l ≠ typeTag r) :
    objIdentEq l r = false := by
  cases l <;> cases r <;> first
    | rfl
    | exact absurd rfl h

/-- C5.  Infix typing on operands whose type tags differ (hence at least
one is not an `Integer`): `==` yields the `FALSE` singleton and `!=` the
`TRUE` singleton of an identity comparison, never an error, while every
other operator yields the `type mismatch: <L> <op> <R>` error. -/
theorem mixed_type_infix_rules (op : String) (left right : Obj) (st : St)
    (hl : left ≠ Obj.goNil) (hr : right ≠ Obj.goNil)
    (hne : typeTag left ≠ typeTag right) :
    evalInfixExpression "==" left right st = (.ok FALSE, st)
    ∧ evalInfixExpression "!=" left right st = (.ok TRUE, st)
    ∧ (op ≠ "==" → op ≠ "!=" →
        evalInfixExpression op left right st
          = (.ok (Obj.error ("type mismatch: " ++ typeTag left ++ " " ++ op ++ " " ++ typeTag right)), st)) := by
  have hid := objIdentEq_false_of_tag_ne hne
  refine ⟨?_, ?_, fun h1 h2 => ?_⟩ <;>
    cases left <;> cases right <;>
      simp_all [evalInfixExpression, typeTag, objIdentEq, nativeBoolToBooleanObject,
        evalStringInfixExpression, newError, TRUE, FALSE,
        INTEGER_OBJ, BOOLEAN_OBJ, NULL_OBJ, RETURN_VALUE_OBJ, ERROR_OBJ, FUNCTION_OBJ,
        STRING_OBJ, BUILTIN_OBJ, ARRAY_OBJ, HASH_OBJ]

/-- C5 witness: the theorem at `op = "+"`, a `String` left operand and the
`TRUE` boolean right operand. -/
theorem mixed_type_infix_rules_witness :
    evalInfixExpression "==" (Obj.string 0 "x") TRUE initialState = (.ok FALSE, initialState)
    ∧ evalInfixExpression "!=" (Obj.string 0 "x") TRUE initialState = (.ok TRUE, initialState)
    ∧ evalInfixExpression "+" (Obj.string 0 "x") TRUE initialState
        = (.ok (Obj.error "type mismatch: STRING + BOOLEAN"), initialState) := by
  have h := mixed_type_infix_rules "+" (Obj.string 0 "x") TRUE initialState
    (by simp) (by simp [TRUE]) (by decide)
  exact ⟨h.1, h.2.1, h.2.2 (by decide) (by decide)⟩

/-- C6.  Array indexing: `a[i]` on an `Array` of `n` elements with an
`Integer` index yields `Null` when `i < 0` or `n ≤ i`, and otherwise the
`i`-th element (zero-based). -/
theorem array_index_semantics (id : Nat) (elements : List Obj) (idx : Int) :
    ((idx < 0 ∨ (elements.length : Int) ≤ idx) →
      evalIndexExpresson (Obj.array id elements) (Obj.integer idx) = .ok Obj.null)
    ∧ ∀ (h0 : 0 ≤ idx) (hlt : idx < (elements.length : Int)),
        evalIndexExpresson (Obj.array id elements) (Obj.integer idx)
          = .ok (elements.get ⟨idx.toNat, by omega⟩) := by
  constructor
  · intro h
    show Res.ok (evalArrayIndexExpression elements idx) = _
    unfold evalArrayIndexExpression
    rw [dif_pos (by omega)]
  · intro h0 hlt
    show Res.ok (evalArrayIndexExpression elements idx) = _
    unfold evalArrayIndexExpression
    rw [dif_neg (by omega)]

/-- C6 witness: the theorem on the array `[7, 8]` at the out-of-range index
3 and the in-range index 1. -/
theorem array_index_semantics_witness :
    evalIndexExpresson (Obj.array 0 [Obj.integer 7, Obj.integer 8]) (Obj.integer 3)
      = .ok Obj.null
    ∧ evalIndexExpresson (Obj.array 0 [Obj.integer 7, Obj.integer 8]) (Obj.integer 1)
      = .ok (Obj.integer 8) :=
  ⟨(array_index_semantics 0 [Obj.integer 7, Obj.integer 8] 3).1 (by simp),
   (array_index_semantics 0 [Obj.integer 7, Obj.integer 8] 1).2 (by simp) (by simp)⟩

/-- Mutating the freshly appended environment touches exactly it. -/
theorem listModify_append (l : List α) (e : α) (f : α → α) :
    listModify (l ++ [e]) l.length f = l ++ [f e] := by
  induction l with
  | nil => rfl
  | cons a rest ih => simpa [listModify] using ih

/-- `Set` on the environment just appended by `NewEnclosedEnv`. -/
theorem envSet_append (base : List EnvData) (outer : Option Nat) (s : List (String × Obj))
    (nid : Nat) (name : String) (v : Obj) :
    envSet ⟨base ++ [⟨outer, s⟩], nid⟩ base.length name v
      = ⟨base ++ [⟨outer, (name, v) :: s⟩], nid⟩ := by
  simp [envSet, listModify_append]

/-- The binding loop on the fresh call environment: with enough arguments
it binds each formal to the argument at its index (the store grows by the
reversed zip). -/
theorem bindFormalParams_append (base : List EnvData) (outer : Option Nat) (nid : Nat) :
    ∀ (ps : List String) (args : List Obj) (s : List (String × Obj)),
      ps.length ≤ args.length →
      bindFormalParams base.length ps args ⟨base ++ [⟨outer, s⟩], nid⟩
        = .ok ⟨base ++ [⟨outer, (ps.zip args).reverse ++ s⟩], nid⟩
  | [], args, s, _ => by simp [bindFormalParams]
  | p :: ps, [], s, h => by simp at h
  | p :: ps, a :: args, s, h => by
    rw [bindFormalParams, envSet_append,
      bindFormalParams_append base outer nid ps args ((p, a) :: s) (by simpa using h)]
    simp

/-- The binding loop with too few arguments indexes out of range. -/
theorem bindFormalParams_short (envId : Nat) :
    ∀ (ps : List String) (args : List Obj) (st : St),
      args.length < ps.length →
      bindFormalParams envId ps args st = .error indexRangeMsg
  | [], args, st, h => by simp at h
  | p :: ps, [], st, _ => rfl
  | p :: ps, a :: args, st, h =>
    bindFormalParams_short envId ps args (envSet st envId p a) (by simpa using h)

/-- C7.  `createCallEnv` performs no arity check: with `m` formal
parameters and `k` arguments, if `m ≤ k` it returns a fresh environment
enclosed over the closure's environment whose store binds each formal to
the argument at its index, in order, ignoring the extra arguments (the
store is the reversed `zip`, which truncates at the shorter list); if
`k < m` the binding loop indexes the argument slice out of range — a Go
runtime panic, so the call is not total under that precondition. -/
theorem createCallEnv_no_arity_check (formalParams : List String) (envWhenDefined : Nat)
    (args : List Obj) (st : St) :
    (formalParams.length ≤ args.length →
      createCallEnv formalParams envWhenDefined args st
        = .ok (st.envs.length,
               ⟨st.envs ++ [⟨some envWhenDefined, (formalParams.zip args).reverse⟩], st.nextId⟩))
    ∧ (args.length < formalParams.length →
      createCallEnv formalParams envWhenDefined args st = .error indexRangeMsg) := by
  constructor
  · intro h
    have e := bindFormalParams_append st.envs (some envWhenDefined) st.nextId
      formalParams args [] h
    unfold createCallEnv newEnclosedEnv
    simp only [e, List.append_nil]
  · intro h
    have e := bindFormalParams_short st.envs.length formalParams args
      ⟨st.envs ++ [⟨some envWhenDefined, []⟩], st.nextId⟩ h
    unfold createCallEnv newEnclosedEnv
    simp only [e]

/-- C7 witness: the theorem with formals `x, y` applied once to three
arguments (the third is ignored) and once to a single argument (the panic
case). -/
theorem createCallEnv_no_arity_check_witness :
    createCallEnv ["x", "y"] 0 [Obj.integer 1, Obj.integer 2, Obj.integer 3] initialState
      = .ok (1, ⟨[⟨none, []⟩, ⟨some 0, [("y", Obj.integer 2), ("x", Obj.integer 1)]⟩], 0⟩)
    ∧ createCallEnv ["x", "y"] 0 [Obj.integer 1] initialState = .error indexRangeMsg :=
  ⟨(createCallEnv_no_arity_check ["x", "y"] 0 [Obj.integer 1, Obj.integer 2, Obj.integer 3]
      initialState).1 (by simp),
   (createCallEnv_no_arity_check ["x", "y"] 0 [Obj.integer 1] initialState).2 (by simp)⟩

/-- C8 counterexample.  At a parser state expecting `=` but peeking an
`INT` token, `expectPeek` records exactly the message
`expect next token to be =. got INT instead`, which is not the spec's
`expected =, got INT` shape. -/
theorem expectPeek_message_cex :
    (expectPeek ⟨[], ⟨"LET", "let"⟩, ⟨"INT", "5"⟩, []⟩ "=").2.errors
        = ["expect next token to be =. got INT instead"]
    ∧ "expect next token to be =. got INT instead" ≠ specPeekErrorMessage "=" "INT" :=
  ⟨rfl, by decide⟩

/-- C8 as amended.  On a missing expected peek token the parser appends
exactly one message, of the form
`expect next token to be X. got Y instead`, and `expectPeek` returns
`false` — the signal on which the calling production returns nil. -/
theorem expectPeek_records_one_error (p : Parser) (t : String)
    (h : peekTokenIs p t = false) :
    expectPeek p t
      = (false, { p with errors := p.errors
          ++ ["expect next token to be " ++ t ++ ". got " ++ p.peekToken.ttype ++ " instead"] }) := by
  simp [expectPeek, peekError, h]

/-- C8 witness: the theorem at the concrete mismatching state of the
counterexample. -/
theorem expectPeek_records_one_error_witness :
    expectPeek ⟨[], ⟨"LET", "let"⟩, ⟨"INT", "5"⟩, []⟩ "="
      = (false, ⟨[], ⟨"LET", "let"⟩, ⟨"INT", "5"⟩,
          ["expect next token to be =. got INT instead"]⟩) :=
  expectPeek_records_one_error ⟨[], ⟨"LET", "let"⟩, ⟨"INT", "5"⟩, []⟩ "=" (by decide)

/-- C9.  `GetHash` digests: a `Boolean` digests to 1 for true and 0 for
false; an `Integer` in the `int64` range digests to the two's-complement
bit pattern reinterpreted as unsigned; a `String` digests to the FNV-1a
64-bit hash of its UTF-8 bytes — in particular the digest ignores the
allocation, so two `String` values with equal content produce equal
`HashKey`s; the final conjunct pins the algorithm on the standard FNV-1a
test vector for `"a"`. -/
theorem getHash_digests (v : Int) (hlo : -(2 ^ 63) ≤ v) (hhi : v < 2 ^ 63)
    (i j : Nat) (s : String) :
    objGetHash (Obj.boolean true) = some ⟨BOOLEAN_OBJ, 1⟩
    ∧ objGetHash (Obj.boolean false) = some ⟨BOOLEAN_OBJ, 0⟩
    ∧ objGetHash (Obj.integer v)
        = some ⟨INTEGER_OBJ, if 0 ≤ v then v.toNat else (2 ^ 64 + v).toNat⟩
    ∧ objGetHash (Obj.string i s) = objGetHash (Obj.string j s)
    ∧ objGetHash (Obj.string i s) = some ⟨STRING_OBJ, fnv1a64 (utf8Bytes s)⟩
    ∧ stringGetHash "a" = ⟨STRING_OBJ, 12638187200555641996⟩ := by
  refine ⟨rfl, rfl, ?_, rfl, rfl, by decide⟩
  simp only [objGetHash, integerGetHash, uint64OfInt, Option.some.injEq, HashKey.mk.injEq,
    true_and]
  split <;> omega

/-- C9 witness: the theorem at `v = -1`, whose digest is `2^64 - 1`. -/
theorem getHash_digests_witness :
    objGetHash (Obj.integer (-1)) = some ⟨INTEGER_OBJ, 18446744073709551615⟩ :=
  ((getHash_digests (-1) (by norm_num) (by norm_num) 0 1 "a").2.2.1).trans (by decide)

end XMonkey
